import Mathlib

/-!
Verification of the Aura Tarot Dream Analyzer core against its code.

The development shallowly embeds the Python sources:
  * src/src/emotion_model.py  (rule_based_emotion_model)
  * src/src/analyzer.py       (analyze_symbols, generate_tarot_reading)
  * src/src/generator.py      (generate_hybrid_poster style dispatch,
                               generate_aura_field post-processing)
  * src/app.py                (fallback model, remote-response validation,
                               main-logic poster call sites)

Python floats are modelled as rationals; Python dicts with a fixed literal
key order are modelled as association lists in that order; fallible code
returns Option.
-/

/-! ## Text utilities shared by the embedded modules -/

/-- ASCII lowering of one character, the effect of Python str.lower()
on the ASCII range (only ASCII letters matter downstream: the word
regex and every keyword are ASCII). -/
def pyToLowerChar (c : Char) : Char :=
  if 'A' ≤ c ∧ c ≤ 'Z' then Char.ofNat (c.toNat + 32) else c

/-- Lowering of a character list. -/
def pyLowerL (cs : List Char) : List Char := cs.map pyToLowerChar

/-- Embedding of text.lower() as used by the analyzers. -/
def pyLower (s : String) : String := String.mk (pyLowerL s.data)

/-- Whether a character is in the regex class [a-z]. -/
def isLowerAZ (c : Char) : Bool := 'a' ≤ c && c ≤ 'z'

/-- Helper for azRuns: walks the characters, building the current
run of [a-z] characters in reverse in the accumulator. -/
def azRunsAux : List Char → List Char → List String
  | [], acc => if acc.isEmpty then [] else [String.mk acc.reverse]
  | c :: cs, acc =>
    if isLowerAZ c then azRunsAux cs (c :: acc)
    else if acc.isEmpty then azRunsAux cs acc
    else String.mk acc.reverse :: azRunsAux cs []

/-- The maximal runs of [a-z] characters, i.e. re.findall(r"[a-z]+", s). -/
def azRuns (cs : List Char) : List String := azRunsAux cs []

/-- Embedding of re.findall(r"[a-z]+", dream_text.lower()): the word
list whose set of members is the key set of the Counter in
rule_based_emotion_model (src/src/emotion_model.py line 39-40). -/
def emWords (t : String) : List String := azRuns (pyLower t).data

/-- Embedding of has_any: whether any of the candidate words occurs in
the word Counter (src/src/emotion_model.py lines 42-43). -/
def hasAnyW (cands : List String) (words : List String) : Bool :=
  cands.any (fun w => words.contains w)

/-- Whether the pattern begins the character list. -/
def beginsWith : List Char → List Char → Bool
  | [], _ => true
  | _ :: _, [] => false
  | a :: as, b :: bs => a = b && beginsWith as bs

/-- Whether the pattern occurs somewhere in the character list. -/
def hasSubList (n : List Char) : List Char → Bool
  | [] => beginsWith n []
  | c :: cs => beginsWith n (c :: cs) || hasSubList n cs

/-- Embedding of Python substring membership: needle in haystack. -/
def strContains (hay needle : String) : Bool := hasSubList needle.data hay.data

/-- Index of the first occurrence of the pattern, if any. -/
def occIdxAux (n : List Char) : List Char → Nat → Option Nat
  | [], i => if beginsWith n [] then some i else none
  | c :: cs, i => if beginsWith n (c :: cs) then some i else occIdxAux n cs (i + 1)

/-- Index of the first occurrence of needle in hay, if any. -/
def occIdx (needle hay : String) : Option Nat := occIdxAux needle.data hay.data 0

/-! ## src/src/emotion_model.py : rule_based_emotion_model -/

/-- The fixed dimension keys, in the insertion order of the emotions
dict literal (src/src/emotion_model.py lines 46-53). -/
def emotionKeys : List String :=
  ["Fear", "Desire", "Calm", "Mystery", "Connection", "Transformation"]

/-- The six accumulated scores, one field per dict key. -/
structure EmotionVec where
  fear : ℚ
  desire : ℚ
  calm : ℚ
  mystery : ℚ
  connection : ℚ
  transformation : ℚ
  deriving DecidableEq, Repr

/-- fear_words (src/src/emotion_model.py lines 56-60). -/
def fear_words : List String :=
  ["afraid", "scared", "fear", "terrified", "nightmare",
   "dark", "shadow", "monster", "chasing", "chase",
   "run", "running", "falling", "lost"]

/-- desire_words (lines 73-76). -/
def desire_words : List String :=
  ["love", "loved", "kiss", "want", "wish",
   "longing", "desire", "romantic", "date"]

/-- calm_words (line 81). -/
def calm_words : List String :=
  ["floating", "fly", "flying", "calm", "quiet", "peaceful"]

/-- water_words (line 82). -/
def water_words : List String :=
  ["sea", "ocean", "water", "lake", "river", "waves"]

/-- mystery_words (lines 88-91). -/
def mystery_words : List String :=
  ["strange", "weird", "unknown", "portal", "door",
   "fog", "smoke", "mysterious", "secret"]

/-- connection_words (lines 96-99). -/
def connection_words : List String :=
  ["family", "friend", "friends", "together",
   "group", "people", "crowd", "someone"]

/-- transform_words (lines 104-107). -/
def transform_words : List String :=
  ["change", "changed", "transform", "transformation",
   "reborn", "rebirth", "door", "gate", "opening",
   "melting", "reforming", "new"]

/-- Condition of the if at line 61: has_any(fear_words). -/
def emCondFear (t : String) : Bool := hasAnyW fear_words (emWords t)

/-- Condition of the if at line 64: "tunnel" in counts or "underground" in counts. -/
def emCondTunnel (t : String) : Bool :=
  (emWords t).contains "tunnel" || (emWords t).contains "underground"

/-- Condition of the if at line 68: "exam" in counts or "test" in counts. -/
def emCondExam (t : String) : Bool :=
  (emWords t).contains "exam" || (emWords t).contains "test"

/-- Condition of the if at line 77: has_any(desire_words). -/
def emCondDesire (t : String) : Bool := hasAnyW desire_words (emWords t)

/-- Condition of the if at line 83: has_any(calm_words) or has_any(water_words). -/
def emCondCalmWater (t : String) : Bool :=
  hasAnyW calm_words (emWords t) || hasAnyW water_words (emWords t)

/-- Condition of the if at line 92: has_any(mystery_words). -/
def emCondMystery (t : String) : Bool := hasAnyW mystery_words (emWords t)

/-- Condition of the if at line 100: has_any(connection_words). -/
def emCondConn (t : String) : Bool := hasAnyW connection_words (emWords t)

/-- Condition of the if at line 109: has_any(transform_words). -/
def emCondTransform (t : String) : Bool := hasAnyW transform_words (emWords t)

/-- The eight boolean keyword-group conditions that drive the accumulation,
in source order. -/
def emConds (t : String) : List Bool :=
  [emCondFear t, emCondTunnel t, emCondExam t, emCondDesire t,
   emCondCalmWater t, emCondMystery t, emCondConn t, emCondTransform t]

/-- The accumulated (pre-normalization) emotion values: base 0.1 per
dimension plus the increments of the if-blocks of
src/src/emotion_model.py lines 46-110, in source order. -/
def emAccum (t : String) : EmotionVec :=
  { fear := 1/10 + (if emCondFear t then 1/2 else 0)
      + (if emCondTunnel t then 1/5 else 0)
      + (if emCondExam t then 3/10 else 0)
    desire := 1/10 + (if emCondExam t then 1/5 else 0)
      + (if emCondDesire t then 1/2 else 0)
    calm := 1/10 + (if emCondCalmWater t then 1/2 else 0)
    mystery := 1/10 + (if emCondTunnel t then 1/5 else 0)
      + (if emCondCalmWater t then 1/10 else 0)
      + (if emCondMystery t then 1/2 else 0)
    connection := 1/10 + (if emCondConn t then 1/2 else 0)
    transformation := 1/10 + (if emCondTransform t then 1/2 else 0) }

/-- max(emotions.values()) (src/src/emotion_model.py line 113). -/
def emMaxRaw (a : EmotionVec) : ℚ :=
  max a.fear (max a.desire (max a.calm
    (max a.mystery (max a.connection a.transformation))))

/-- max(emotions.values()) or 1.0: Python's or substitutes 1.0 when the
maximum is falsy, i.e. equal to 0 (line 113). -/
def emMaxGuard (a : EmotionVec) : ℚ :=
  if emMaxRaw a = 0 then 1 else emMaxRaw a

/-- The normalization loop of lines 114-115: each value becomes
min(1.0, value / max_v), keys kept in insertion order. -/
def emNormalizeProfile (a : EmotionVec) : List (String × ℚ) :=
  [("Fear", min 1 (a.fear / emMaxGuard a)),
   ("Desire", min 1 (a.desire / emMaxGuard a)),
   ("Calm", min 1 (a.calm / emMaxGuard a)),
   ("Mystery", min 1 (a.mystery / emMaxGuard a)),
   ("Connection", min 1 (a.connection / emMaxGuard a)),
   ("Transformation", min 1 (a.transformation / emMaxGuard a))]

/-- The emotions dict returned by rule_based_emotion_model of
src/src/emotion_model.py: keyword accumulation followed by the
divide-by-max normalization of lines 112-115. -/
def rule_based_emotion_model (t : String) : List (String × ℚ) :=
  emNormalizeProfile (emAccum t)

/-- The accumulated values as a list in key order. -/
def emAccList (t : String) : List ℚ :=
  [(emAccum t).fear, (emAccum t).desire, (emAccum t).calm,
   (emAccum t).mystery, (emAccum t).connection, (emAccum t).transformation]

/-- All six accumulated values are equal (the zero-range situation of
the spec's min-max discussion). -/
def emAccAllEqual (a : EmotionVec) : Prop :=
  a.fear = a.desire ∧ a.desire = a.calm ∧ a.calm = a.mystery ∧
    a.mystery = a.connection ∧ a.connection = a.transformation

instance (a : EmotionVec) : Decidable (emAccAllEqual a) := by
  unfold emAccAllEqual; infer_instance

/-- Minimum of the six accumulated values. -/
def emMinRaw (a : EmotionVec) : ℚ :=
  min a.fear (min a.desire (min a.calm
    (min a.mystery (min a.connection a.transformation))))

/-- Min-max rescaling as the spec describes the Emotion Extractor's
normalization: subtract the minimum, divide by the range. Stated from
the spec's words, for comparison with the source's divide-by-max
normalization; it is not what the code computes. -/
def specMinMaxRescale (v minv maxv : ℚ) : ℚ := (v - minv) / (maxv - minv)

/-- Association-list lookup, the reading of a Python dict entry. -/
def assocLookup (l : List (String × ℚ)) (k : String) : Option ℚ :=
  match l with
  | [] => none
  | (k', v) :: rest => if k' = k then some v else assocLookup rest k

/-! ## src/app.py lines 129-206 : the fallback rule_based_emotion_model -/

/-- fear_words of src/app.py line 152 (substring matching, per keyword). -/
def app_fear_words : List String :=
  ["chase", "chasing", "afraid", "scared", "dark", "monster",
   "run away", "fall", "falling", "exam"]

/-- desire_words of src/app.py line 153. -/
def app_desire_words : List String :=
  ["kiss", "love", "want", "wish", "date", "beautiful", "pretty", "wedding"]

/-- calm_words of src/app.py line 154. -/
def app_calm_words : List String :=
  ["sea", "ocean", "beach", "floating", "fly", "flying", "sky", "calm", "peaceful"]

/-- mystery_words of src/app.py line 155. -/
def app_mystery_words : List String :=
  ["fog", "unknown", "strange", "mystery", "mysterious", "shadow", "portal"]

/-- connection_words of src/app.py line 156. -/
def app_connection_words : List String :=
  ["family", "friend", "friends", "together", "hug", "group", "people"]

/-- transform_words of src/app.py line 157. -/
def app_transform_words : List String :=
  ["change", "transform", "transformation", "reborn", "rebirth",
   "bridge", "door", "threshold"]

/-- The per-keyword boost loops of src/app.py lines 159-176: each keyword
that occurs as a substring of the lowered text adds 0.2. -/
def appBoostSum (ws : List String) (tl : String) : ℚ :=
  ws.foldl (fun acc w => if strContains tl w then acc + 1/5 else acc) 0

/-- Condition of src/app.py line 179: "exam" in text_lower or "test" in text_lower. -/
def appExamCond (tl : String) : Bool :=
  strContains tl "exam" || strContains tl "test"

/-- Condition of src/app.py line 182: water, sea or ocean in text_lower. -/
def appWaterCond (tl : String) : Bool :=
  strContains tl "water" || strContains tl "sea" || strContains tl "ocean"

/-- The clamp of src/app.py line 188: max(0.0, min(1.0, v)). -/
def appClamp (v : ℚ) : ℚ := max 0 (min 1 v)

/-- The emotions dict of src/app.py's fallback rule_based_emotion_model
(lines 139-188): base 0.2, additive per-keyword substring boosts, the
exam/water adjustments, then the clamp to [0, 1]. -/
def app_rule_based_emotion_model (t : String) : List (String × ℚ) :=
  let tl := pyLower t
  [("Fear", appClamp (1/5 + appBoostSum app_fear_words tl
      + (if appExamCond tl then 1/10 else 0))),
   ("Desire", appClamp (1/5 + appBoostSum app_desire_words tl
      + (if appExamCond tl then 1/10 else 0))),
   ("Calm", appClamp (1/5 + appBoostSum app_calm_words tl
      + (if appWaterCond tl then 1/20 else 0))),
   ("Mystery", appClamp (1/5 + appBoostSum app_mystery_words tl
      + (if appWaterCond tl then 1/10 else 0))),
   ("Connection", appClamp (1/5 + appBoostSum app_connection_words tl)),
   ("Transformation", appClamp (1/5 + appBoostSum app_transform_words tl))]

/-! ## Bounds lemmas for the emotion models -/

lemma ite_zero_nonneg (c : Prop) [Decidable c] {x : ℚ} (hx : 0 ≤ x) :
    0 ≤ if c then x else 0 := by
  split
  · exact hx
  · exact le_refl 0

lemma emAccum_fear_ge (t : String) : 1/10 ≤ (emAccum t).fear := by
  have h1 := ite_zero_nonneg (emCondFear t = true) (x := (1/2 : ℚ)) (by norm_num)
  have h2 := ite_zero_nonneg (emCondTunnel t = true) (x := (1/5 : ℚ)) (by norm_num)
  have h3 := ite_zero_nonneg (emCondExam t = true) (x := (3/10 : ℚ)) (by norm_num)
  simp only [emAccum]
  linarith

lemma emAccum_desire_ge (t : String) : 1/10 ≤ (emAccum t).desire := by
  have h1 := ite_zero_nonneg (emCondExam t = true) (x := (1/5 : ℚ)) (by norm_num)
  have h2 := ite_zero_nonneg (emCondDesire t = true) (x := (1/2 : ℚ)) (by norm_num)
  simp only [emAccum]
  linarith

lemma emAccum_calm_ge (t : String) : 1/10 ≤ (emAccum t).calm := by
  have h1 := ite_zero_nonneg (emCondCalmWater t = true) (x := (1/2 : ℚ)) (by norm_num)
  simp only [emAccum]
  linarith

lemma emAccum_mystery_ge (t : String) : 1/10 ≤ (emAccum t).mystery := by
  have h1 := ite_zero_nonneg (emCondTunnel t = true) (x := (1/5 : ℚ)) (by norm_num)
  have h2 := ite_zero_nonneg (emCondCalmWater t = true) (x := (1/10 : ℚ)) (by norm_num)
  have h3 := ite_zero_nonneg (emCondMystery t = true) (x := (1/2 : ℚ)) (by norm_num)
  simp only [emAccum]
  linarith

lemma emAccum_connection_ge (t : String) : 1/10 ≤ (emAccum t).connection := by
  have h1 := ite_zero_nonneg (emCondConn t = true) (x := (1/2 : ℚ)) (by norm_num)
  simp only [emAccum]
  linarith

lemma emAccum_transformation_ge (t : String) : 1/10 ≤ (emAccum t).transformation := by
  have h1 := ite_zero_nonneg (emCondTransform t = true) (x := (1/2 : ℚ)) (by norm_num)
  simp only [emAccum]
  linarith

lemma emMaxRaw_ge (t : String) : 1/10 ≤ emMaxRaw (emAccum t) := by
  calc (1/10 : ℚ) ≤ (emAccum t).fear := emAccum_fear_ge t
    _ ≤ emMaxRaw (emAccum t) := le_max_left _ _

lemma emMaxGuard_pos (t : String) : 0 < emMaxGuard (emAccum t) := by
  unfold emMaxGuard
  split
  · norm_num
  · have := emMaxRaw_ge t
    linarith

lemma norm_entry_bounds (t : String) (v : ℚ) (hv : 0 ≤ v) :
    0 ≤ min 1 (v / emMaxGuard (emAccum t)) ∧
      min 1 (v / emMaxGuard (emAccum t)) ≤ 1 := by
  constructor
  · exact le_min (by norm_num) (div_nonneg hv (le_of_lt (emMaxGuard_pos t)))
  · exact min_le_left _ _

lemma appClamp_bounds (v : ℚ) : 0 ≤ appClamp v ∧ appClamp v ≤ 1 := by
  unfold appClamp
  constructor
  · exact le_max_left 0 _
  · exact max_le (by norm_num) (min_le_left _ _)

/-! ## Theorems about the Emotion Extractor (claims C2, C3, C4, C9) -/

/-- C2: for every input text, the emotion extraction function returns a
mapping whose key set is exactly Fear, Desire, Calm, Mystery, Connection,
Transformation in that fixed order, and every value lies in [0, 1].
Proved for both extractors of the repository: rule_based_emotion_model of
src/src/emotion_model.py and the fallback model of src/app.py. -/
theorem emotion_profile_keys_fixed_and_bounded (t : String) :
    (rule_based_emotion_model t).map Prod.fst = emotionKeys ∧
    (∀ p ∈ rule_based_emotion_model t, 0 ≤ p.2 ∧ p.2 ≤ 1) ∧
    (app_rule_based_emotion_model t).map Prod.fst = emotionKeys ∧
    (∀ p ∈ app_rule_based_emotion_model t, 0 ≤ p.2 ∧ p.2 ≤ 1) := by
  refine ⟨rfl, ?_, rfl, ?_⟩
  · intro p hp
    simp only [rule_based_emotion_model, emNormalizeProfile, List.mem_cons,
      List.not_mem_nil, or_false] at hp
    rcases hp with h | h | h | h | h | h <;> subst h
    · exact norm_entry_bounds t _ (le_trans (by norm_num) (emAccum_fear_ge t))
    · exact norm_entry_bounds t _ (le_trans (by norm_num) (emAccum_desire_ge t))
    · exact norm_entry_bounds t _ (le_trans (by norm_num) (emAccum_calm_ge t))
    · exact norm_entry_bounds t _ (le_trans (by norm_num) (emAccum_mystery_ge t))
    · exact norm_entry_bounds t _ (le_trans (by norm_num) (emAccum_connection_ge t))
    · exact norm_entry_bounds t _ (le_trans (by norm_num) (emAccum_transformation_ge t))
  · intro p hp
    simp only [app_rule_based_emotion_model, List.mem_cons,
      List.not_mem_nil, or_false] at hp
    rcases hp with h | h | h | h | h | h <;> subst h <;> exact appClamp_bounds _

/-- C3 counterexample: on the text "fear" the code's normalization gives
Desire the value 1/6, while min-max rescaling (subtract the minimum,
divide by the range) of the accumulated vector would give Desire the
value 0; so the Extractor does not rescale by min-max normalization. -/
theorem c3_counterexample_not_minmax :
    assocLookup (rule_based_emotion_model "fear") "Desire" = some (1/6) ∧
    specMinMaxRescale (emAccum "fear").desire
      (emMinRaw (emAccum "fear")) (emMaxRaw (emAccum "fear")) = 0 ∧
    ((1 : ℚ)/6) ≠ 0 := by
  have hF : emCondFear "fear" = true := by decide
  have hT : emCondTunnel "fear" = false := by decide
  have hE : emCondExam "fear" = false := by decide
  have hD : emCondDesire "fear" = false := by decide
  have hC : emCondCalmWater "fear" = false := by decide
  have hM : emCondMystery "fear" = false := by decide
  have hCo : emCondConn "fear" = false := by decide
  have hTr : emCondTransform "fear" = false := by decide
  have ha : emAccum "fear" =
      ⟨3/5, 1/10, 1/10, 1/10, 1/10, 1/10⟩ := by
    simp [emAccum, hF, hT, hE, hD, hC, hM, hCo, hTr]
    norm_num
  have hmax : emMaxRaw (emAccum "fear") = 3/5 := by
    rw [ha]; simp [emMaxRaw, max_def]; norm_num
  have hmin : emMinRaw (emAccum "fear") = 1/10 := by
    rw [ha]; simp [emMinRaw, min_def]; norm_num
  have hguard : emMaxGuard (emAccum "fear") = 3/5 := by
    rw [emMaxGuard, hmax]; norm_num
  have hguardL : emMaxGuard (⟨3/5, 1/10, 1/10, 1/10, 1/10, 1/10⟩ : EmotionVec) = 3/5 := by
    rw [← ha]; exact hguard
  refine ⟨?_, ?_, by norm_num⟩
  · unfold rule_based_emotion_model
    rw [ha]
    unfold emNormalizeProfile
    rw [hguardL]
    norm_num [assocLookup, min_def]
    all_goals decide
  · rw [specMinMaxRescale, hmin, hmax, ha]
    norm_num

/-- C3 as amended: the Extractor rescales each accumulated value by
dividing by the maximum accumulated value (clamped above by 1.0, with a
guard substituting 1.0 for a zero maximum), not by min-max; in the edge
case where all six accumulated values are equal this yields the constant
all-ones profile, with no division by zero. -/
theorem emotion_model_divides_by_max (t : String) :
    (rule_based_emotion_model t).map Prod.snd
      = (emAccList t).map (fun v => min 1 (v / emMaxGuard (emAccum t))) ∧
    (emAccAllEqual (emAccum t) →
      (rule_based_emotion_model t).map Prod.snd = [1, 1, 1, 1, 1, 1]) := by
  constructor
  · rfl
  · intro h
    obtain ⟨h1, h2, h3, h4, h5⟩ := h
    have d_eq : (emAccum t).desire = (emAccum t).fear := h1.symm
    have c_eq : (emAccum t).calm = (emAccum t).fear := (h1.trans h2).symm
    have m_eq : (emAccum t).mystery = (emAccum t).fear :=
      (h1.trans (h2.trans h3)).symm
    have co_eq : (emAccum t).connection = (emAccum t).fear :=
      (h1.trans (h2.trans (h3.trans h4))).symm
    have tr_eq : (emAccum t).transformation = (emAccum t).fear :=
      (h1.trans (h2.trans (h3.trans (h4.trans h5)))).symm
    have hfear : (0 : ℚ) < (emAccum t).fear :=
      lt_of_lt_of_le (by norm_num) (emAccum_fear_ge t)
    have hmax : emMaxRaw (emAccum t) = (emAccum t).fear := by
      unfold emMaxRaw
      rw [d_eq, c_eq, m_eq, co_eq, tr_eq]
      simp [max_self]
    have hguard : emMaxGuard (emAccum t) = (emAccum t).fear := by
      unfold emMaxGuard
      rw [hmax]
      exact if_neg (ne_of_gt hfear)
    have hdiv : (emAccum t).fear / (emAccum t).fear = 1 :=
      div_self (ne_of_gt hfear)
    simp only [rule_based_emotion_model, emNormalizeProfile, List.map_cons,
      List.map_nil, hguard, d_eq, c_eq, m_eq, co_eq, tr_eq, hdiv, min_self]

/-- Witness for the amended C3 theorem at the empty text, where no
keyword matches and all six accumulated values are the base 0.1. -/
theorem emotion_model_divides_by_max_witness :
    (rule_based_emotion_model "").map Prod.snd = [1, 1, 1, 1, 1, 1] := by
  apply (emotion_model_divides_by_max "").2
  have hF : emCondFear "" = false := by decide
  have hT : emCondTunnel "" = false := by decide
  have hE : emCondExam "" = false := by decide
  have hD : emCondDesire "" = false := by decide
  have hC : emCondCalmWater "" = false := by decide
  have hM : emCondMystery "" = false := by decide
  have hCo : emCondConn "" = false := by decide
  have hTr : emCondTransform "" = false := by decide
  refine ⟨?_, ?_, ?_, ?_, ?_⟩ <;>
    simp [emAccum, hF, hT, hE, hD, hC, hM, hCo, hTr]

/-- C4 counterexample: "afraid" and "scared" are two distinct keywords of
the fixed table, both mapping to Fear, and both match the text
"afraid scared"; yet the accumulated Fear score for "afraid scared"
equals the one for "afraid" alone (3/5), so the second matched keyword
contributed nothing separately (the base with no match is 1/10). -/
theorem c4_counterexample_no_separate_contribution :
    "afraid" ∈ fear_words ∧ "scared" ∈ fear_words ∧
    "afraid" ≠ "scared" ∧
    "afraid" ∈ emWords "afraid scared" ∧ "scared" ∈ emWords "afraid scared" ∧
    (emAccum "afraid scared").fear = (emAccum "afraid").fear ∧
    (emAccum "afraid scared").fear = 3/5 ∧
    (emAccum "").fear = 1/10 := by
  have h1 : emCondFear "afraid scared" = true := by decide
  have h2 : emCondTunnel "afraid scared" = false := by decide
  have h3 : emCondExam "afraid scared" = false := by decide
  have h4 : emCondFear "afraid" = true := by decide
  have h5 : emCondTunnel "afraid" = false := by decide
  have h6 : emCondExam "afraid" = false := by decide
  have h7 : emCondFear "" = false := by decide
  have h8 : emCondTunnel "" = false := by decide
  have h9 : emCondExam "" = false := by decide
  refine ⟨by decide, by decide, by decide, by decide, by decide, ?_, ?_, ?_⟩
  · norm_num [emAccum, h1, h2, h3, h4, h5, h6]
  · norm_num [emAccum, h1, h2, h3]
  · norm_num [emAccum, h7, h8, h9]

/-- C4 as amended: in src/src/emotion_model.py the accumulation is per
keyword group, not per keyword: each group's weight is added once when at
least one keyword of the group occurs, so the whole profile is a function
of the eight boolean group-match conditions only, and a second matched
keyword from the same group adds nothing. -/
theorem emotion_model_depends_only_on_group_conditions (t₁ t₂ : String)
    (h : emConds t₁ = emConds t₂) :
    emAccum t₁ = emAccum t₂ ∧
    rule_based_emotion_model t₁ = rule_based_emotion_model t₂ := by
  have h' := h
  simp only [emConds, List.cons.injEq, and_true] at h'
  obtain ⟨e1, e2, e3, e4, e5, e6, e7, e8⟩ := h'
  have ha : emAccum t₁ = emAccum t₂ := by
    simp [emAccum, e1, e2, e3, e4, e5, e6, e7, e8]
  exact ⟨ha, by simp [rule_based_emotion_model, ha]⟩

/-- Witness for the amended C4 theorem: "afraid scared" and "afraid"
match exactly the same keyword groups, so they produce identical
emotion profiles. -/
theorem emotion_model_group_conditions_witness :
    rule_based_emotion_model "afraid scared" = rule_based_emotion_model "afraid" :=
  (emotion_model_depends_only_on_group_conditions "afraid scared" "afraid"
    (by decide)).2

/-- Helper: an entry whose accumulated value is the positive maximum is
normalized to exactly 1. -/
lemma em_entry_one (t : String) (v : ℚ) (hv : 0 < v)
    (hmax : emMaxRaw (emAccum t) = v) :
    min 1 (v / emMaxGuard (emAccum t)) = 1 := by
  have hg : emMaxGuard (emAccum t) = v := by
    unfold emMaxGuard
    rw [hmax]
    exact if_neg (ne_of_gt hv)
  rw [hg, div_self (ne_of_gt hv), min_self]

/-- C9: for every text, rule_based_emotion_model of
src/src/emotion_model.py outputs at least one dimension equal to exactly
1 (the maximal accumulated value is scaled to full intensity by the
divide-by-max normalization); in particular, for the empty text all six
dimensions are 1, not the small positive base value. -/
theorem emotion_model_some_dimension_is_one (t : String) :
    (∃ p, p ∈ rule_based_emotion_model t ∧ p.2 = 1) ∧
    rule_based_emotion_model "" = emotionKeys.map (fun k => (k, 1)) := by
  constructor
  · have hf : (0 : ℚ) < (emAccum t).fear :=
      lt_of_lt_of_le (by norm_num) (emAccum_fear_ge t)
    have hd : (0 : ℚ) < (emAccum t).desire :=
      lt_of_lt_of_le (by norm_num) (emAccum_desire_ge t)
    have hc : (0 : ℚ) < (emAccum t).calm :=
      lt_of_lt_of_le (by norm_num) (emAccum_calm_ge t)
    have hm : (0 : ℚ) < (emAccum t).mystery :=
      lt_of_lt_of_le (by norm_num) (emAccum_mystery_ge t)
    have hco : (0 : ℚ) < (emAccum t).connection :=
      lt_of_lt_of_le (by norm_num) (emAccum_connection_ge t)
    have htr : (0 : ℚ) < (emAccum t).transformation :=
      lt_of_lt_of_le (by norm_num) (emAccum_transformation_ge t)
    rcases max_choice (emAccum t).fear (max (emAccum t).desire
        (max (emAccum t).calm (max (emAccum t).mystery
          (max (emAccum t).connection (emAccum t).transformation)))) with hx1 | hx1
    · exact ⟨("Fear", min 1 ((emAccum t).fear / emMaxGuard (emAccum t))),
        by simp [rule_based_emotion_model, emNormalizeProfile],
        em_entry_one t _ hf hx1⟩
    · rcases max_choice (emAccum t).desire (max (emAccum t).calm
          (max (emAccum t).mystery
            (max (emAccum t).connection (emAccum t).transformation))) with hx2 | hx2
      · exact ⟨("Desire", min 1 ((emAccum t).desire / emMaxGuard (emAccum t))),
          by simp [rule_based_emotion_model, emNormalizeProfile],
          em_entry_one t _ hd (hx1.trans hx2)⟩
      · rcases max_choice (emAccum t).calm (max (emAccum t).mystery
            (max (emAccum t).connection (emAccum t).transformation)) with hx3 | hx3
        · exact ⟨("Calm", min 1 ((emAccum t).calm / emMaxGuard (emAccum t))),
            by simp [rule_based_emotion_model, emNormalizeProfile],
            em_entry_one t _ hc ((hx1.trans hx2).trans hx3)⟩
        · rcases max_choice (emAccum t).mystery
              (max (emAccum t).connection (emAccum t).transformation) with hx4 | hx4
          · exact ⟨("Mystery", min 1 ((emAccum t).mystery / emMaxGuard (emAccum t))),
              by simp [rule_based_emotion_model, emNormalizeProfile],
              em_entry_one t _ hm (((hx1.trans hx2).trans hx3).trans hx4)⟩
          · rcases max_choice (emAccum t).connection (emAccum t).transformation
              with hx5 | hx5
            · exact ⟨("Connection",
                min 1 ((emAccum t).connection / emMaxGuard (emAccum t))),
                by simp [rule_based_emotion_model, emNormalizeProfile],
                em_entry_one t _ hco ((((hx1.trans hx2).trans hx3).trans hx4).trans hx5)⟩
            · exact ⟨("Transformation",
                min 1 ((emAccum t).transformation / emMaxGuard (emAccum t))),
                by simp [rule_based_emotion_model, emNormalizeProfile],
                em_entry_one t _ htr ((((hx1.trans hx2).trans hx3).trans hx4).trans hx5)⟩
  · have hF : emCondFear "" = false := by decide
    have hT : emCondTunnel "" = false := by decide
    have hE : emCondExam "" = false := by decide
    have hD : emCondDesire "" = false := by decide
    have hC : emCondCalmWater "" = false := by decide
    have hM : emCondMystery "" = false := by decide
    have hCo : emCondConn "" = false := by decide
    have hTr : emCondTransform "" = false := by decide
    have ha : emAccum "" = ⟨1/10, 1/10, 1/10, 1/10, 1/10, 1/10⟩ := by
      simp [emAccum, hF, hT, hE, hD, hC, hM, hCo, hTr]
    have hmax : emMaxRaw (emAccum "") = 1/10 := by
      rw [ha]; simp [emMaxRaw, max_self]
    have hguard : emMaxGuard (emAccum "") = 1/10 := by
      rw [emMaxGuard, hmax]; norm_num
    have hfe : (emAccum "").fear = 1/10 := by rw [ha]
    have hde : (emAccum "").desire = 1/10 := by rw [ha]
    have hce : (emAccum "").calm = 1/10 := by rw [ha]
    have hme : (emAccum "").mystery = 1/10 := by rw [ha]
    have hcoe : (emAccum "").connection = 1/10 := by rw [ha]
    have htre : (emAccum "").transformation = 1/10 := by rw [ha]
    simp only [rule_based_emotion_model, emNormalizeProfile, emotionKeys,
      List.map_cons, List.map_nil, hguard, hfe, hde, hce, hme, hcoe, htre]
    norm_num [min_def]

/-! ## src/app.py main logic : poster variation seeds (claim C1) -/

/-- The seed argument passed to generate_hybrid_poster for poster
variation 1 at src/app.py line 525: the literal constant 0, independent
of the dream text. -/
def posterVariation1Seed (dreamText : String) : ℕ := 0

/-- The seed argument passed to generate_hybrid_poster for poster
variation 2 at src/app.py line 532: the literal constant 7, independent
of the dream text. -/
def posterVariation2Seed (dreamText : String) : ℕ := 7

/-- C1 counterexample: two distinct dream texts receive identical
accent-layer seeds (always 0 for variation 1 and 7 for variation 2), so
the seed is not a hash-digest prefix of the text and distinct texts never
produce distinct seeds. -/
theorem c1_counterexample_seed_not_text_hash :
    posterVariation1Seed "I was flying over the sea" =
      posterVariation1Seed "A dark tunnel before the exam" ∧
    posterVariation2Seed "I was flying over the sea" =
      posterVariation2Seed "A dark tunnel before the exam" ∧
    "I was flying over the sea" ≠ "A dark tunnel before the exam" := by
  refine ⟨rfl, rfl, ?_⟩
  decide

/-- C1 as amended: the accent-layer seed is a constant function of the
dream text — 0 for variation 1 and 7 for variation 2. Repeated runs on
the same text reuse the same seed, but every pair of texts shares the
same seed; no hash of the text is computed. -/
theorem poster_variation_seeds_constant (t₁ t₂ : String) :
    posterVariation1Seed t₁ = 0 ∧
    posterVariation2Seed t₁ = 7 ∧
    posterVariation1Seed t₁ = posterVariation1Seed t₂ ∧
    posterVariation2Seed t₁ = posterVariation2Seed t₂ :=
  ⟨rfl, rfl, rfl, rfl⟩

/-! ## src/src/generator.py : generate_hybrid_poster style dispatch (claim C5) -/

/-- The compositing parameters chosen by the style dispatch: the alpha
set on the aura image and the density_scale passed to
draw_geometric_accents; none means the accent layer is not drawn at all. -/
structure ComposeParams where
  fieldAlpha : ℚ
  accentDensity : Option ℚ
  deriving DecidableEq, Repr

/-- The style dispatch of generate_hybrid_poster
(src/src/generator.py lines 243-255): "Geometric Focus" sets the field
alpha to 0.80 and draws accents with density_scale 1.5; "Aura Focus"
sets alpha 0.98 and draws no accents; every other style string takes the
else branch, alpha 0.90 and density_scale 0.9. The emotion vector and
seed are passed through to the layers and do not affect these
parameters. -/
def generate_hybrid_poster_params
    (emotions : EmotionVec) (style : String) (seed : ℕ) : ComposeParams :=
  if style = "Geometric Focus" then ⟨80/100, some (15/10)⟩
  else if style = "Aura Focus" then ⟨98/100, none⟩
  else ⟨90/100, some (9/10)⟩

/-- C5: for every emotion vector and seed, the composer of
src/src/generator.py applies the style policy: field opacity in
[0.95, 0.98] for Aura Focus (with no accent layer), in [0.85, 0.90] for
Hybrid with density_scale 0.9, and in [0.65, 0.80] for Geometric Focus
with density_scale 1.5 which lies in [1.4, 1.5]; any other style string
yields exactly the Hybrid parameters. -/
theorem poster_composer_style_policy (e : EmotionVec) (s : ℕ) :
    (95/100 ≤ (generate_hybrid_poster_params e "Aura Focus" s).fieldAlpha ∧
      (generate_hybrid_poster_params e "Aura Focus" s).fieldAlpha ≤ 98/100 ∧
      (generate_hybrid_poster_params e "Aura Focus" s).accentDensity = none) ∧
    (85/100 ≤ (generate_hybrid_poster_params e "Hybrid" s).fieldAlpha ∧
      (generate_hybrid_poster_params e "Hybrid" s).fieldAlpha ≤ 90/100 ∧
      (generate_hybrid_poster_params e "Hybrid" s).accentDensity = some (9/10)) ∧
    (65/100 ≤ (generate_hybrid_poster_params e "Geometric Focus" s).fieldAlpha ∧
      (generate_hybrid_poster_params e "Geometric Focus" s).fieldAlpha ≤ 80/100 ∧
      (generate_hybrid_poster_params e "Geometric Focus" s).accentDensity
        = some (15/10) ∧
      (14/10 : ℚ) ≤ 15/10 ∧ (15/10 : ℚ) ≤ 15/10) ∧
    (∀ st : String, st ≠ "Geometric Focus" → st ≠ "Aura Focus" →
      generate_hybrid_poster_params e st s
        = generate_hybrid_poster_params e "Hybrid" s) := by
  have hA : generate_hybrid_poster_params e "Aura Focus" s = ⟨98/100, none⟩ := by
    unfold generate_hybrid_poster_params
    rw [if_neg (by decide), if_pos rfl]
  have hH : generate_hybrid_poster_params e "Hybrid" s = ⟨90/100, some (9/10)⟩ := by
    unfold generate_hybrid_poster_params
    rw [if_neg (by decide), if_neg (by decide)]
  have hG : generate_hybrid_poster_params e "Geometric Focus" s
      = ⟨80/100, some (15/10)⟩ := by
    unfold generate_hybrid_poster_params
    rw [if_pos rfl]
  refine ⟨?_, ?_, ?_, ?_⟩
  · rw [hA]; refine ⟨by norm_num, by norm_num, rfl⟩
  · rw [hH]; refine ⟨by norm_num, by norm_num, rfl⟩
  · rw [hG]; refine ⟨by norm_num, by norm_num, rfl, by norm_num, by norm_num⟩
  · intro st h1 h2
    rw [hH]
    unfold generate_hybrid_poster_params
    rw [if_neg h1, if_neg h2]

/-- Witness for the C5 theorem: the unrecognized style "Watercolor"
receives exactly the Hybrid compositing parameters. -/
theorem poster_composer_style_policy_witness :
    generate_hybrid_poster_params ⟨1/2, 1/2, 1/2, 1/2, 1/2, 1/2⟩ "Watercolor" 0
      = generate_hybrid_poster_params ⟨1/2, 1/2, 1/2, 1/2, 1/2, 1/2⟩ "Hybrid" 0 :=
  (poster_composer_style_policy ⟨1/2, 1/2, 1/2, 1/2, 1/2, 1/2⟩ 0).2.2.2
    "Watercolor" (by decide) (by decide)

/-! ## src/src/generator.py : generate_aura_field post-processing (claim C8) -/

/-- field.min() over the flattened nonempty grid (numpy min). -/
def listMin : List ℚ → ℚ
  | [] => 0
  | x :: xs => xs.foldl min x

/-- field.max() over the flattened nonempty grid (numpy max). -/
def listMax : List ℚ → ℚ
  | [] => 0
  | x :: xs => xs.foldl max x

/-- The post-processing of generate_aura_field
(src/src/generator.py lines 133-136): field = field - field.min() then
field = field / (field.max() + 1e-6), elementwise on the flattened
grid. -/
def normalizeField (f : List ℚ) : List ℚ :=
  let shifted := f.map (fun v => v - listMin f)
  shifted.map (fun v => v / (listMax shifted + 1/1000000))

lemma foldl_min_le_init (l : List ℚ) (a : ℚ) : l.foldl min a ≤ a := by
  induction l generalizing a with
  | nil => exact le_refl a
  | cons c cs ih => exact le_trans (ih (min a c)) (min_le_left a c)

lemma foldl_min_le_mem (l : List ℚ) (a x : ℚ) (hx : x ∈ l) :
    l.foldl min a ≤ x := by
  induction l generalizing a with
  | nil => cases hx
  | cons c cs ih =>
    rcases List.mem_cons.mp hx with h | h
    · subst h
      exact le_trans (foldl_min_le_init cs (min a x)) (min_le_right a x)
    · exact ih (min a c) h

lemma listMin_le_mem (f : List ℚ) (x : ℚ) (hx : x ∈ f) : listMin f ≤ x := by
  cases f with
  | nil => cases hx
  | cons y ys =>
    rcases List.mem_cons.mp hx with h | h
    · subst h
      exact foldl_min_le_init ys x
    · exact foldl_min_le_mem ys y x h

lemma init_le_foldl_max (l : List ℚ) (a : ℚ) : a ≤ l.foldl max a := by
  induction l generalizing a with
  | nil => exact le_refl a
  | cons c cs ih => exact le_trans (le_max_left a c) (ih (max a c))

lemma mem_le_foldl_max (l : List ℚ) (a x : ℚ) (hx : x ∈ l) :
    x ≤ l.foldl max a := by
  induction l generalizing a with
  | nil => cases hx
  | cons c cs ih =>
    rcases List.mem_cons.mp hx with h | h
    · subst h
      exact le_trans (le_max_right a x) (init_le_foldl_max cs (max a x))
    · exact ih (max a c) h

lemma mem_le_listMax (f : List ℚ) (x : ℚ) (hx : x ∈ f) : x ≤ listMax f := by
  cases f with
  | nil => cases hx
  | cons y ys =>
    rcases List.mem_cons.mp hx with h | h
    · subst h
      exact init_le_foldl_max ys x
    · exact mem_le_foldl_max ys y x h

/-- C8: for every nonempty raw field (whatever the emotion vector
produced, including a degenerate constant field), the epsilon-guarded
post-processing of generate_aura_field divides by a strictly positive
quantity (so it can never raise) and yields values that all lie in
[0, 1]. -/
theorem field_postprocessing_guarded_and_bounded (f : List ℚ) (h : f ≠ []) :
    0 < listMax (f.map (fun v => v - listMin f)) + 1/1000000 ∧
    ∀ v ∈ normalizeField f, 0 ≤ v ∧ v ≤ 1 := by
  obtain ⟨y, ys, rfl⟩ := List.exists_cons_of_ne_nil h
  have hhead : (0 : ℚ) ≤ y - listMin (y :: ys) := by
    have := listMin_le_mem (y :: ys) y (List.mem_cons_self y ys)
    linarith
  have hheadmem : y - listMin (y :: ys) ∈
      (y :: ys).map (fun v => v - listMin (y :: ys)) :=
    List.mem_map.mpr ⟨y, List.mem_cons_self y ys, rfl⟩
  have hM : (0 : ℚ) ≤ listMax ((y :: ys).map (fun v => v - listMin (y :: ys))) :=
    le_trans hhead (mem_le_listMax _ _ hheadmem)
  have hden : (0 : ℚ) <
      listMax ((y :: ys).map (fun v => v - listMin (y :: ys))) + 1/1000000 := by
    linarith
  refine ⟨hden, ?_⟩
  intro v hv
  simp only [normalizeField] at hv
  rcases List.mem_map.mp hv with ⟨s, hs, rfl⟩
  rcases List.mem_map.mp hs with ⟨x, hxmem, rfl⟩
  have hs0 : (0 : ℚ) ≤ x - listMin (y :: ys) := by
    have := listMin_le_mem (y :: ys) x hxmem
    linarith
  have hsM : x - listMin (y :: ys)
      ≤ listMax ((y :: ys).map (fun v => v - listMin (y :: ys))) :=
    mem_le_listMax _ _ (List.mem_map.mpr ⟨x, hxmem, rfl⟩)
  constructor
  · exact div_nonneg hs0 (le_of_lt hden)
  · rw [div_le_one hden]
    linarith

/-- Witness for the C8 theorem on the degenerate constant field
[1/2, 1/2], whose shifted range is zero: the guard keeps the denominator
positive and the outputs bounded. -/
theorem field_postprocessing_guarded_witness :
    ([(1 : ℚ)/2, 1/2] ≠ []) ∧
    (0 < listMax (([(1 : ℚ)/2, 1/2]).map (fun v => v - listMin [(1 : ℚ)/2, 1/2]))
        + 1/1000000 ∧
      ∀ v ∈ normalizeField [(1 : ℚ)/2, 1/2], 0 ≤ v ∧ v ≤ 1) :=
  ⟨by decide, field_postprocessing_guarded_and_bounded [(1 : ℚ)/2, 1/2] (by decide)⟩

/-! ## src/src/analyzer.py : SYMBOLS and analyze_symbols (claim C6) -/

/-- The SYMBOLS dict of src/src/analyzer.py lines 7-33, in its literal
insertion order. -/
def SYMBOLS : List (String × String) :=
  [("water", "Water → emotional depth, instability, or changing feelings."),
   ("sea", "Sea → vast emotions and the unknown parts of yourself."),
   ("ocean", "Ocean → powerful, overwhelming emotions or life changes."),
   ("river", "River → the flow of time, relationships, or life direction."),
   ("drown", "Drowning → feeling overwhelmed or out of control emotionally."),
   ("fire", "Fire → passion, anger, or intense transformation."),
   ("bridge", "Bridge → transition, crossing from one stage to another."),
   ("fall", "Falling → loss of control, insecurity, or fear of failure."),
   ("train", "Train → pressure, life rhythm, or a set direction you are following."),
   ("station", "Station → waiting, choices, or preparation for change."),
   ("stranger", "Stranger → unknown self, new sides of your personality."),
   ("dark", "Darkness → uncertainty, hidden fears, or confusion."),
   ("light", "Light → awareness, realization, or hope."),
   ("white dress", "White dress → purity, expectation, or social roles about identity."),
   ("door", "Door → opportunity, boundary, or a choice you may need to make."),
   ("corridor", "Corridor → transition zone, searching for direction."),
   ("chase", "Being chased → avoiding problems or pressure."),
   ("exam", "Exam → self-judgement, pressure to prove your value."),
   ("family", "Family → core relationships, support, or unresolved family issues."),
   ("friend", "Friends → social connection, support, or comparison."),
   ("lover", "Lover → intimacy, expectations in relationships, or emotional needs."),
   ("kiss", "Kiss → desire for connection, acceptance, or emotional closeness."),
   ("death", "Death → ending of a phase, transformation, or deep change."),
   ("reborn", "Rebirth → healing, new beginning, and inner growth."),
   ("flying", "Flying → freedom, gaining perspective, or escaping limits.")]

/-- SYMBOLS.keys() in iteration order. -/
def symbolKeys : List String := SYMBOLS.map Prod.fst

/-- The dedup loop of analyze_symbols (lines 53-59): keep the first
occurrence of each symbol, tracking seen symbols. -/
def dedupAux : List String → List String → List String
  | _, [] => []
  | seen, x :: xs =>
    if x ∈ seen then dedupAux seen xs
    else x :: dedupAux (x :: seen) xs

/-- Deduplicate preserving the first occurrence of each element. -/
def dedupFirst (l : List String) : List String := dedupAux [] l

/-- analyze_symbols (src/src/analyzer.py lines 36-60): lower the text,
append "white dress" first when it occurs, then every other key of
SYMBOLS occurring as a substring, in table order; finally deduplicate
keeping first occurrences. -/
def analyze_symbols (text : String) : List String :=
  let tl := pyLower text
  let found :=
    (if strContains tl "white dress" then ["white dress"] else [])
      ++ symbolKeys.filter (fun k => (k != "white dress") && strContains tl k)
  dedupFirst found

lemma mem_dedupAux (l seen : List String) (x : String) :
    x ∈ dedupAux seen l ↔ x ∈ l ∧ x ∉ seen := by
  induction l generalizing seen with
  | nil => simp [dedupAux]
  | cons c cs ih =>
    by_cases hc : c ∈ seen
    · simp only [dedupAux, if_pos hc, ih, List.mem_cons]
      constructor
      · rintro ⟨h1, h2⟩
        exact ⟨Or.inr h1, h2⟩
      · rintro ⟨h1, h2⟩
        rcases h1 with h1 | h1
        · subst h1
          exact absurd hc h2
        · exact ⟨h1, h2⟩
    · simp only [dedupAux, if_neg hc, List.mem_cons, ih]
      by_cases hxc : x = c
      · subst hxc
        simp [hc]
      · simp only [hxc, false_or]

lemma nodup_dedupAux (l seen : List String) : (dedupAux seen l).Nodup := by
  induction l generalizing seen with
  | nil => exact List.nodup_nil
  | cons c cs ih =>
    by_cases hc : c ∈ seen
    · simp only [dedupAux, if_pos hc]
      exact ih seen
    · simp only [dedupAux, if_neg hc]
      refine List.nodup_cons.mpr ⟨fun hmem => ?_, ih (c :: seen)⟩
      exact ((mem_dedupAux cs (c :: seen) c).mp hmem).2 (List.mem_cons_self c seen)

/-- Whether a symbol list is sorted by first occurrence in the lowered
text, i.e. listed in order of appearance. -/
def appearanceOrdered (symbols : List String) (text : String) : Prop :=
  symbols.Pairwise (fun a b =>
    (occIdx a (pyLower text)).getD 0 ≤ (occIdx b (pyLower text)).getD 0)

instance (symbols : List String) (text : String) :
    Decidable (appearanceOrdered symbols text) := by
  unfold appearanceOrdered
  infer_instance

/-- C6 counterexample: in "light before dark" the symbol "light" appears
at index 0 and "dark" at index 13, but analyze_symbols returns
["dark", "light"] — the fixed table order, not the order of appearance
in the text. -/
theorem c6_counterexample_table_order_not_appearance :
    analyze_symbols "light before dark" = ["dark", "light"] ∧
    occIdx "light" (pyLower "light before dark") = some 0 ∧
    occIdx "dark" (pyLower "light before dark") = some 13 ∧
    ¬ appearanceOrdered (analyze_symbols "light before dark")
        "light before dark" := by
  refine ⟨by decide, by decide, by decide, by decide⟩

/-- The dedup pass is the identity on a duplicate-free list whose
elements avoid the seen set. -/
lemma dedupAux_eq_self (l : List String) : ∀ seen : List String, l.Nodup →
    (∀ x ∈ l, x ∉ seen) → dedupAux seen l = l := by
  induction l with
  | nil => intro seen _ _; rfl
  | cons c cs ih =>
    intro seen h1 h2
    have hc : c ∉ seen := h2 c (List.mem_cons_self c cs)
    have hhead : c ∉ cs := (List.nodup_cons.mp h1).1
    simp only [dedupAux, if_neg hc]
    congr 1
    apply ih (c :: seen) (List.nodup_cons.mp h1).2
    intro x hx hmem
    rcases List.mem_cons.mp hmem with h | h
    · exact hhead (h ▸ hx)
    · exact h2 x (List.mem_cons_of_mem c hx) h

/-- The matched-key filter in table order, as analyze_symbols builds it. -/
def matchedTableKeys (text : String) : List String :=
  symbolKeys.filter (fun k => (k != "white dress") && strContains (pyLower text) k)

/-- C6 as amended: analyze_symbols returns exactly the known symbols
occurring as substrings of the lower-cased text — "white dress" pulled
to the front when present, the rest in the fixed order of the symbol
table rather than order of appearance — deduplicated (no symbol twice)
and complete (every matching key is listed). The last conjunct is the
ordering property in full: the output is literally the optional
"white dress" prefix followed by the filter of the table keys in table
order. -/
theorem analyze_symbols_complete_nodup (text : String) :
    (analyze_symbols text).Nodup ∧
    (∀ s ∈ analyze_symbols text,
      s ∈ symbolKeys ∧ strContains (pyLower text) s = true) ∧
    (∀ k ∈ symbolKeys, strContains (pyLower text) k = true →
      k ∈ analyze_symbols text) ∧
    analyze_symbols text =
      (if strContains (pyLower text) "white dress" then ["white dress"] else [])
        ++ matchedTableKeys text := by
  have hkeys : symbolKeys.Nodup := by decide
  have hfilter : (matchedTableKeys text).Nodup := hkeys.filter _
  have hwd : "white dress" ∉ matchedTableKeys text := by
    intro hmem
    have hb := (List.mem_filter.mp hmem).2
    have hne := ((Bool.and_eq_true _ _).mp hb).1
    exact (bne_iff_ne.mp hne) rfl
  have hfound : ((if strContains (pyLower text) "white dress" then
      ["white dress"] else []) ++ matchedTableKeys text).Nodup := by
    by_cases hw : strContains (pyLower text) "white dress" = true
    · rw [if_pos hw, List.singleton_append]
      exact List.nodup_cons.mpr ⟨hwd, hfilter⟩
    · rw [if_neg hw, List.nil_append]
      exact hfilter
  have heq : analyze_symbols text =
      (if strContains (pyLower text) "white dress" then ["white dress"] else [])
        ++ matchedTableKeys text := by
    simp only [analyze_symbols, dedupFirst, matchedTableKeys]
    apply dedupAux_eq_self _ []
    · simpa only [matchedTableKeys] using hfound
    · intro x _
      exact List.not_mem_nil x
  refine ⟨nodup_dedupAux _ _, ?_, ?_, heq⟩
  · intro s hs
    have hmem := ((mem_dedupAux _ _ s).mp hs).1
    rcases List.mem_append.mp hmem with h | h
    · by_cases hw : strContains (pyLower text) "white dress" = true
      · rw [if_pos hw] at h
        rcases List.mem_cons.mp h with h | h
        · subst h
          exact ⟨by decide, hw⟩
        · cases h
      · rw [if_neg hw] at h
        cases h
    · have := List.mem_filter.mp h
      refine ⟨this.1, ?_⟩
      have hb := this.2
      exact (Bool.and_eq_true _ _).mp hb |>.2
  · intro k hk hcont
    apply (mem_dedupAux _ _ k).mpr
    refine ⟨?_, List.not_mem_nil k⟩
    apply List.mem_append.mpr
    by_cases hw : k = "white dress"
    · subst hw
      left
      rw [if_pos hcont]
      exact List.mem_cons_self _ _
    · right
      apply List.mem_filter.mpr
      refine ⟨hk, ?_⟩
      apply (Bool.and_eq_true _ _).mpr
      exact ⟨bne_iff_ne.mpr hw, hcont⟩

/-- Witness for the amended C6 theorem: "dark" occurs in
"light before dark", so it is listed among the detected symbols. -/
theorem analyze_symbols_complete_witness :
    "dark" ∈ analyze_symbols "light before dark" :=
  (analyze_symbols_complete_nodup "light before dark").2.2.1 "dark"
    (by decide) (by decide)

/-! ## src/app.py : remote response validation and main-logic reads (claim C7) -/

/-- A parsed JSON value: string, number, or object. -/
inductive PyVal where
  | pstr (s : String)
  | pnum (q : ℚ)
  | pobj (fields : List (String × PyVal))

/-- Reading a key of a JSON object; none models a missing key. -/
def lookupKey : List (String × PyVal) → String → Option PyVal
  | [], _ => none
  | (k', v) :: rest, k => if k' = k then some v else lookupKey rest k

/-- The basic validation of analyze_dream_with_openai
(src/app.py lines 109-116): reject when "emotions" is absent, when its
value is not an object (the membership test would raise, caught by the
broad except), or when any of the 6 dimension keys is absent; otherwise
return the parsed data unchanged. No other key is checked. -/
def analyze_validate (data : List (String × PyVal)) :
    Option (List (String × PyVal)) :=
  match lookupKey data "emotions" with
  | none => none
  | some (PyVal.pobj fields) =>
    if emotionKeys.all (fun k => (lookupKey fields k).isSome) then some data
    else none
  | some _ => none

/-- analyze_dream_with_openai after transport and JSON parsing
(src/app.py lines 89-122): a transport error or non-JSON body is
modelled as none input (the except branch returns None); a parsed JSON
object goes through the basic validation. -/
def analyze_dream_with_openai (parsed : Option (List (String × PyVal))) :
    Option (List (String × PyVal)) :=
  match parsed with
  | none => none
  | some data => analyze_validate data

/-- The unconditional field reads of the main logic
(src/app.py lines 494-498): ai_result["symbolic_summary"], ["emotions"],
["tarot_shadow"], ["tarot_energy"], ["tarot_guidance"]; a none result
models an uncaught KeyError that crashes the analysis run. -/
def mainExtractFields (r : List (String × PyVal)) :
    Option (PyVal × PyVal × PyVal × PyVal × PyVal) :=
  match lookupKey r "symbolic_summary", lookupKey r "emotions",
      lookupKey r "tarot_shadow", lookupKey r "tarot_energy",
      lookupKey r "tarot_guidance" with
  | some a, some b, some c, some d, some e => some (a, b, c, d, e)
  | _, _, _, _, _ => none

/-- A remote response that is a valid JSON object with a complete
emotions block and the three tarot fields, but no "symbolic_summary"
key. -/
def missingSummaryResponse : List (String × PyVal) :=
  [("emotions", PyVal.pobj
      [("Fear", PyVal.pnum (1/2)), ("Desire", PyVal.pnum (1/2)),
       ("Calm", PyVal.pnum (1/2)), ("Mystery", PyVal.pnum (1/2)),
       ("Connection", PyVal.pnum (1/2)), ("Transformation", PyVal.pnum (1/2))]),
   ("tarot_shadow", PyVal.pstr "s"),
   ("tarot_energy", PyVal.pstr "e"),
   ("tarot_guidance", PyVal.pstr "g")]

/-- C7 evidence: transport failures and non-JSON bodies do fall back
(none propagates), and a response missing an emotion dimension key is
rejected; but a response missing the required "symbolic_summary" key
passes the validation unchanged, and the main logic's unconditional read
of "symbolic_summary" then finds no value — the uncaught KeyError of
src/app.py line 494 — instead of triggering the rule-based fallback. -/
theorem remote_missing_summary_key_not_treated_as_failure :
    analyze_dream_with_openai none = none ∧
    analyze_dream_with_openai
        (some [("emotions", PyVal.pobj [("Fear", PyVal.pnum 1)])]) = none ∧
    analyze_dream_with_openai (some missingSummaryResponse)
      = some missingSummaryResponse ∧
    lookupKey missingSummaryResponse "symbolic_summary" = none ∧
    mainExtractFields missingSummaryResponse = none :=
  ⟨rfl, rfl, rfl, rfl, rfl⟩

/-! ## src/src/analyzer.py : generate_tarot_reading (claim C10) -/

/-- Stable insertion step for the descending sort: the new element is
placed after every strictly greater element and before every element of
smaller or equal value. Since sortDesc inserts earlier-listed elements
last, equal values keep their original relative order — the behaviour of
Python's stable sorted(..., reverse=True). -/
def insertDesc (x : String × ℚ) : List (String × ℚ) → List (String × ℚ)
  | [] => [x]
  | y :: ys => if y.2 > x.2 then y :: insertDesc x ys else x :: y :: ys

/-- Embedding of sorted(emotion_scores.items(), key=value, reverse=True)
(src/src/analyzer.py lines 69-71) as a stable descending sort. -/
def sortDesc : List (String × ℚ) → List (String × ℚ)
  | [] => []
  | x :: xs => insertDesc x (sortDesc xs)

/-- dom1, dom2 of src/src/analyzer.py line 72: the names of the first
two entries of the sorted list; none models the IndexError on a mapping
with fewer than two entries. -/
def domPair (scores : List (String × ℚ)) : Option (String × String) :=
  match sortDesc scores with
  | a :: b :: _ => some (a.1, b.1)
  | _ => none

/-- The aura_map dict of src/src/analyzer.py lines 74-81. -/
def aura_map : List (String × String) :=
  [("Fear", "deep blue and indigo tones, showing hidden worries and tension"),
   ("Desire", "rose and red aura, reflecting strong longing and emotional intensity"),
   ("Calm", "soft green and blue fields, suggesting recovery and emotional healing"),
   ("Mystery", "violet twilight light, symbolizing intuition and unanswered questions"),
   ("Connection", "warm orange glow, expressing relationships and emotional bonds"),
   ("Transformation", "golden light, hinting at change, ending, and new beginnings")]

/-- Association lookup on a dict with string values. -/
def strAssocLookup : List (String × String) → String → Option String
  | [], _ => none
  | (k', v) :: rest, k => if k' = k then some v else strAssocLookup rest k

/-- emotion_scores.get(k, 0). -/
def getScore (scores : List (String × ℚ)) (k : String) : ℚ :=
  (assocLookup scores k).getD 0

/-- generate_tarot_reading (src/src/analyzer.py lines 63-137): the
three-part Shadow / Energy / Guidance reading, a pure function of the
symbol list and the emotion scores. -/
def generate_tarot_reading (symbols : List String)
    (scores : List (String × ℚ)) : Option (String × String × String) :=
  match domPair scores with
  | none => none
  | some (dom1, dom2) =>
    let aura_sentence := (strAssocLookup aura_map dom1).getD
      "shifting colors that mirror your complex emotions."
    let shadow_parts : List String :=
      (if symbols.isEmpty then [] else
        ["In your dream, symbols like "
          ++ String.intercalate ", " (symbols.take 3)
          ++ " appear. They point to themes you may not fully face yet."])
      ++ (if getScore scores "Fear" > 11/20 ∨ getScore scores "Mystery" > 11/20
        then ["There is a strong undercurrent of fear or uncertainty, "
          ++ "suggesting you might be avoiding a conversation, decision, or emotion in waking life."]
        else ["The shadow side of this dream is gentle — it hints at subtle doubts rather than overwhelming fear."])
    let shadow_text := String.intercalate " " shadow_parts
    let energy_text := "Your aura leans toward " ++ aura_sentence
      ++ ". The main energies in this dream are **" ++ dom1 ++ "** and **"
      ++ dom2 ++ "**, shaping how you react and move right now."
    let guidance_parts : List String :=
      (if getScore scores "Transformation" ≥ 1/2
        then ["This is a transition moment. Let old expectations slowly fall away, "
          ++ "and allow yourself to step into a new rhythm."]
        else [])
      ++ (if getScore scores "Calm" ≥ 1/2
        then ["Even if the dream feels intense, there is a calm core inside you. "
          ++ "Trust that you are already learning how to balance your emotions."]
        else [])
      ++ (if getScore scores "Connection" ≥ 1/2
        then ["Reach out to people you trust — sharing what you feel can turn isolation into support."]
        else [])
    let guidance_full := if guidance_parts.isEmpty
      then ["Take one small, kind action for yourself today — a walk, a note, or a quiet moment. "
        ++ "Small rituals can gently realign your energy."]
      else guidance_parts
    some (shadow_text, energy_text, String.intercalate " " guidance_full)

/-- The earliest entry attaining the maximum value: ties are broken in
favour of the earlier position — the selection the claim describes for
the fixed dictionary key order. Stated from the claim's words, for
comparison with the sort-based selection of the source. -/
def firstMaxEntry : List (String × ℚ) → Option (String × ℚ)
  | [] => none
  | x :: xs =>
    match firstMaxEntry xs with
    | none => some x
    | some m => if m.2 > x.2 then some m else some x

/-- The list with its earliest maximum entry removed. -/
def removeFirstMax : List (String × ℚ) → List (String × ℚ)
  | [] => []
  | x :: xs =>
    match firstMaxEntry xs with
    | none => []
    | some m => if m.2 > x.2 then x :: removeFirstMax xs else xs

/-- The dominant pair as the claim describes it: the earliest maximum,
then the earliest maximum of the remaining entries. -/
def specDomPair (scores : List (String × ℚ)) : Option (String × String) :=
  match firstMaxEntry scores, firstMaxEntry (removeFirstMax scores) with
  | some a, some b => some (a.1, b.1)
  | _, _ => none

lemma firstMaxEntry_eq_none (l : List (String × ℚ)) :
    firstMaxEntry l = none ↔ l = [] := by
  cases l with
  | nil => simp [firstMaxEntry]
  | cons x xs =>
    cases h : firstMaxEntry xs with
    | none => simp [firstMaxEntry, h]
    | some m => by_cases hgt : m.2 > x.2 <;> simp [firstMaxEntry, h, hgt]

lemma sortDesc_cons_max (l : List (String × ℚ)) (m : String × ℚ)
    (h : firstMaxEntry l = some m) :
    sortDesc l = m :: sortDesc (removeFirstMax l) := by
  induction l generalizing m with
  | nil => simp [firstMaxEntry] at h
  | cons x xs ih =>
    cases hfm : firstMaxEntry xs with
    | none =>
      have hnil : xs = [] := (firstMaxEntry_eq_none xs).mp hfm
      subst hnil
      simp only [firstMaxEntry] at h
      obtain rfl : x = m := by
        cases h
        rfl
      simp [sortDesc, insertDesc, removeFirstMax, firstMaxEntry]
    | some mx =>
      have ihm := ih mx hfm
      by_cases hgt : mx.2 > x.2
      · have hm : mx = m := by
          simp only [firstMaxEntry, hfm, if_pos hgt] at h
          cases h
          rfl
        subst hm
        have hrm : removeFirstMax (x :: xs) = x :: removeFirstMax xs := by
          simp [removeFirstMax, hfm, hgt]
        rw [hrm]
        calc sortDesc (x :: xs) = insertDesc x (sortDesc xs) := rfl
          _ = insertDesc x (mx :: sortDesc (removeFirstMax xs)) := by rw [ihm]
          _ = mx :: insertDesc x (sortDesc (removeFirstMax xs)) := by
              simp [insertDesc, hgt]
          _ = mx :: sortDesc (x :: removeFirstMax xs) := rfl
      · have hm : x = m := by
          simp only [firstMaxEntry, hfm, if_neg hgt] at h
          cases h
          rfl
        subst hm
        have hrm : removeFirstMax (x :: xs) = xs := by
          simp [removeFirstMax, hfm, hgt]
        rw [hrm]
        calc sortDesc (x :: xs) = insertDesc x (sortDesc xs) := rfl
          _ = insertDesc x (mx :: sortDesc (removeFirstMax xs)) := by rw [ihm]
          _ = x :: mx :: sortDesc (removeFirstMax xs) := by simp [insertDesc, hgt]
          _ = x :: sortDesc xs := by rw [← ihm]

lemma domPair_eq_specDomPair (l : List (String × ℚ)) :
    domPair l = specDomPair l := by
  cases hfm : firstMaxEntry l with
  | none =>
    have hnil : l = [] := (firstMaxEntry_eq_none l).mp hfm
    subst hnil
    rfl
  | some a =>
    have h1 := sortDesc_cons_max l a hfm
    cases hfm2 : firstMaxEntry (removeFirstMax l) with
    | none =>
      have h2 : removeFirstMax l = [] := (firstMaxEntry_eq_none _).mp hfm2
      rw [h2] at h1
      simp [domPair, specDomPair, h1, hfm, hfm2, sortDesc]
    | some b =>
      have h2 := sortDesc_cons_max _ b hfm2
      rw [h2] at h1
      simp [domPair, specDomPair, h1, hfm, hfm2]

/-- C10: generate_tarot_reading is a pure function of
(symbols, emotion_scores) — the embedding is deterministic by
construction — and its sort-based dominant-dimension selection agrees
with the stable fixed-order rule: dom1 is the earliest entry attaining
the maximum value, dom2 the earliest maximum among the remaining
entries. In particular, a six-way tie over the fixed key order names
Fear and Desire in the Energy text. -/
theorem tarot_dominant_pair_stable_fixed_order
    (scores : List (String × ℚ)) (q : ℚ) :
    domPair scores = specDomPair scores ∧
    domPair [("Fear", q), ("Desire", q), ("Calm", q), ("Mystery", q),
        ("Connection", q), ("Transformation", q)] = some ("Fear", "Desire") := by
  refine ⟨domPair_eq_specDomPair scores, ?_⟩
  rw [domPair_eq_specDomPair]
  simp [specDomPair, firstMaxEntry, removeFirstMax, gt_iff_lt, lt_self_iff_false]

/-- Witness for the C2 theorem at the empty text: the Fear entry of the
profile is a member of the output and the theorem bounds it to [0, 1]. -/
theorem emotion_profile_keys_fixed_and_bounded_witness :
    0 ≤ min 1 ((emAccum "").fear / emMaxGuard (emAccum "")) ∧
    min 1 ((emAccum "").fear / emMaxGuard (emAccum "")) ≤ 1 :=
  (emotion_profile_keys_fixed_and_bounded "").2.1
    ("Fear", min 1 ((emAccum "").fear / emMaxGuard (emAccum "")))
    (by simp [rule_based_emotion_model, emNormalizeProfile])
